import Mathlib

/-!
Verification of the AP overlap-graph assembler against its specification.

The Python sources are embedded shallowly:

* DNA sequences are lists over an exact four-letter alphabet `Base`
  (the sources treat any non-ACGT character as a configuration error).
* Python machine integers are `Int`/`Nat`; `>> 1` on a possibly negative
  direction tag is `Int.fdiv · 2` and `& 1` is `Int.emod · 2`, which agree
  with Python's arithmetic shift and nonnegative remainder.
* The adjacency dictionary `self.g` of `OverlapGraph` is a function
  `Nat → Nat → Option (Int × Int)` carrying `(dir, overhang)`; the
  vertex-key set of the Python dict is exactly `0 .. n-1`, so loops
  `for u in self.g` become iteration over `List.range n`.
* Fallible Python code (IndexError, ValueError, KeyError, failing
  assert statements) is embedded in `Except String`.
* Python's stable `sorted` is an insertion sort (`sortLe`), stable by
  construction, so that all definitions reduce inside the kernel.
-/

/-- The DNA alphabet.  `FindOverlaps.nt4char` orders it A, C, G, T. -/
inductive Base
  | A
  | C
  | G
  | T
deriving DecidableEq, BEq, Repr

/-- `FindOverlaps.nt4map`: A=0, C=1, G=2, T=3. -/
def nt4 : Base → Nat
  | .A => 0
  | .C => 1
  | .G => 2
  | .T => 3

/-- Base-wise complement, `AssemblyProblem.comp_tab` (ACGT -> TGCA). -/
def compBase : Base → Base
  | .A => .T
  | .C => .G
  | .G => .C
  | .T => .A

/-- `AssemblyProblem.reverse_complement`: complement each base, then reverse. -/
def reverse_complement (s : List Base) : List Base :=
  (s.map compBase).reverse

/-- The big-endian base-4 value `sum nt4(s[i]) * 4^(k-1-i)` used by
`FindOverlaps.kmercode` for both the forward string and the complemented
string read backwards. -/
def kmerVal : List Base → Nat
  | [] => 0
  | b :: t => nt4 b * 4 ^ t.length + kmerVal t

/-- `FindOverlaps.kmercode`: canonical integer code of a k-mer together with
the flag recording whether the reverse complement was the smaller encoding.
The source computes `r = s.translate(comp_tab)` and reads `r` backwards,
which is exactly `kmerVal (reverse_complement s)`; the returned pair is
`(min(forward, reverse), reverse < forward)`. -/
def kmercode (s : List Base) : Nat × Bool :=
  let forward := kmerVal s
  let reverse := kmerVal (reverse_complement s)
  (min forward reverse, decide (reverse < forward))

/-- `OverlapGraph`: `n` reads, adjacency `g u v = some (dir, overhang)`
when the Python dict `self.g[u]` has key `v` with value `(dir, overhang)`.
The sequences themselves are not stored: none of the embedded operations
reads anything from `self.seqs` except lengths, which the builders receive
directly. -/
@[ext]
structure OverlapGraph where
  n : Nat
  g : Nat → Nat → Option (Int × Int)

/-- `OverlapGraph.__init__`: every vertex present, no edges. -/
def emptyOG (n : Nat) : OverlapGraph :=
  ⟨n, fun _ _ => none⟩

/-- The raw dict assignment `self.g[u][v] = (d, l)`. -/
def setEdge (G : OverlapGraph) (u v : Nat) (d l : Int) : OverlapGraph :=
  ⟨G.n, fun x y => if x = u ∧ y = v then some (d, l) else G.g x y⟩

/-- `OverlapGraph.add_overlap`: IndexError on out-of-range indices
(the Python check `u < 0 or u >= self.n or v < 0 or v >= self.n`; the
negative half is vacuous for `Nat` indices, and every in-repo caller
passes nonnegative indices).  If the edge exists with overhang `<= l`
the call is a no-op, otherwise the edge is (over)written with `(d, l)`. -/
def addOverlap (G : OverlapGraph) (u v : Nat) (d l : Int) :
    Except String OverlapGraph :=
  if u < G.n ∧ v < G.n then
    match G.g u v with
    | some (_, l0) => if l0 ≤ l then .ok G else .ok (setEdge G u v d l)
    | none => .ok (setEdge G u v d l)
  else .error "IndexError"

/-- `OverlapGraph.num_edges`: sum of adjacency-list sizes.  The Python
dict keys are exactly `0 .. n-1` outside and, in every reachable graph,
a subset of `0 .. n-1` inside, so both sums range over `List.range n`. -/
def numEdges (G : OverlapGraph) : Nat :=
  ((List.range G.n).map
    (fun u => (List.range G.n).countP (fun v => (G.g u v).isSome))).sum

/-- Well-formedness: every stored edge joins in-range vertices.  Every
graph the Python code can build satisfies this because `add_overlap` is
the only way an edge is created and it bound-checks both endpoints. -/
def WF (G : OverlapGraph) : Prop :=
  ∀ u v, (G.g u v).isSome = true → u < G.n ∧ v < G.n

/-- First-match association-list lookup used to describe concrete graphs. -/
def lookupEdge : List (Nat × Nat × Int × Int) → Nat → Nat → Option (Int × Int)
  | [], _, _ => none
  | (a, b, d, l) :: rest, u, v =>
    if a = u ∧ b = v then some (d, l) else lookupEdge rest u v

/-- A concrete graph on `n` vertices holding the listed edges. -/
def mkGraph (n : Nat) (es : List (Nat × Nat × Int × Int)) : OverlapGraph :=
  ⟨n, fun u v => if u < n ∧ v < n then lookupEdge es u v else none⟩

/-- `OverlapGraph.get_pruned`, first loop: `v` is contained when some
edge `(u, v)` carries `dir = -1`. -/
def containedB (G : OverlapGraph) (v : Nat) : Bool :=
  (List.range G.n).any fun u =>
    match G.g u v with
    | some (d, _) => d == -1
    | none => false

/-- `OverlapGraph.get_pruned`, second loop: copy every edge whose two
endpoints are both non-contained into a fresh graph on the same vertex
set.  Each ordered pair is visited once, and `add_overlap` on a fresh
graph with in-range keys is exactly the assignment, so the result is
this filter of the adjacency. -/
def getPruned (G : OverlapGraph) : OverlapGraph :=
  ⟨G.n, fun u v =>
    if u < G.n ∧ v < G.n ∧ containedB G u = false ∧ containedB G v = false then
      G.g u v
    else none⟩

/-- `edir`/`suflen` lookups of `get_naive_tr`; the default 0 is never
consulted by the embedded code except where the source itself would
raise, which the embedding reports separately. -/
def suflen (G : OverlapGraph) (u v : Nat) : Int :=
  match G.g u v with
  | some (_, l) => l
  | none => 0

/-- Direction tag of an edge, 0 when absent (same caveat as `suflen`). -/
def edir (G : OverlapGraph) (u v : Nat) : Int :=
  match G.g u v with
  | some (d, _) => d
  | none => 0

/-- Edge presence, the Python test `v in g[u]`. -/
def hasEdge (G : OverlapGraph) (u v : Nat) : Bool :=
  (G.g u v).isSome

/-- `arrows(u, v) = ((dir >> 1) & 1, dir & 1)` with Python's arithmetic
shift and nonnegative remainder on possibly negative tags. -/
def arrows (d : Int) : Int × Int :=
  ((d.fdiv 2).emod 2, d.emod 2)

/-- The triangle-consistency test of `get_naive_tr` (source line
`uv_head == uw_head and vw_tail == uw_tail and uv_tail != vw_head`,
where each pair is unpacked as `head, tail = arrows(..)`). -/
def arrowCondB (G : OverlapGraph) (u v w : Nat) : Bool :=
  let uv := arrows (edir G u v)
  let vw := arrows (edir G v w)
  let uw := arrows (edir G u w)
  (uv.1 == uw.1) && (vw.2 == uw.2) && (uv.2 != vw.1)

/-- The marking phase raises KeyError exactly when some triple
`(u, v, w)` with edges `(u,v)`, `(v,w)`, `(u,w)` passes the arrow test
but the overhang test's lookup `g[w][v]` finds no edge. -/
def markErrorB (G : OverlapGraph) : Bool :=
  (List.range G.n).any fun u =>
    (List.range G.n).any fun v =>
      (List.range G.n).any fun w =>
        hasEdge G u v && hasEdge G v w && hasEdge G u w &&
          arrowCondB G u v w && !hasEdge G w v

/-- The final value of `reduce[x][y]`: marked iff some triangle
`(u, v, w)` passes the arrow test and the literal overhang test
`suflen(u,w) + suflen(w,v) >= suflen(u,w) + fuzz`, with
`(x, y) = (u, w)` or `(x, y) = (w, u)` (the source always marks the
pair together). -/
def markedB (G : OverlapGraph) (fuzz : Int) (x y : Nat) : Bool :=
  (List.range G.n).any fun u =>
    (List.range G.n).any fun v =>
      (List.range G.n).any fun w =>
        hasEdge G u v && hasEdge G v w && hasEdge G u w &&
          arrowCondB G u v w && hasEdge G w v &&
          decide (suflen G u w + suflen G w v ≥ suflen G u w + fuzz) &&
          ((x == u && y == w) || (x == w && y == u))

/-- The copy phase raises KeyError exactly when some unmarked edge
`(u, w)` has no reverse edge `(w, u)`: without the reverse edge the
entry `reduce[w][u]` read by the assert (and the lookup `g[w][u]` used
to copy the shadow edge) does not exist. -/
def copyErrorB (G : OverlapGraph) (fuzz : Int) : Bool :=
  (List.range G.n).any fun u =>
    (List.range G.n).any fun w =>
      hasEdge G u w && !markedB G fuzz u w && !hasEdge G w u

/-- `OverlapGraph.get_naive_tr`: raises KeyError when either phase hits
a missing lookup, otherwise returns the graph of unmarked edges (the
copy phase adds each unmarked edge and its reverse; on the success path
the reverse is itself an unmarked edge, re-added as a no-op). -/
def naiveTr (G : OverlapGraph) (fuzz : Int) : Except String OverlapGraph :=
  if markErrorB G then .error "KeyError"
  else if copyErrorB G fuzz then .error "KeyError"
  else .ok ⟨G.n, fun x y =>
    if x < G.n ∧ y < G.n ∧ markedB G fuzz x y = false then G.g x y else none⟩

/-- Three dovetailing reads with all shadow edges (scenario S4's layout:
overhang 3 for the adjacent pairs, 6 for the long pair), on which
`get_naive_tr` succeeds. -/
def Gc : OverlapGraph :=
  mkGraph 3 [(0, 1, 1, 3), (1, 0, 2, 3), (1, 2, 1, 3), (2, 1, 2, 3),
             (0, 2, 1, 6), (2, 0, 2, 6)]

/-- The graph `get_naive_tr(Gc, 0)` returns. -/
def GcTr : OverlapGraph :=
  match naiveTr Gc 0 with
  | .ok tr => tr
  | .error _ => emptyOG 0

/-- Scenario S3's gold graph: read 1 contained in read 0, a single
dir = -1 edge with no shadow edge. -/
def Gp : OverlapGraph := mkGraph 2 [(0, 1, -1, 0)]

/-- Stable insertion keeping earlier equal elements in front, so that
`sortLe` below behaves like Python's stable `sorted`. -/
def insertLe {α : Type} (le : α → α → Bool) (a : α) : List α → List α
  | [] => [a]
  | b :: t => if le b a then b :: insertLe le a t else a :: b :: t

/-- Stable insertion sort modelling Python's `sorted(..., key=...)`. -/
def sortLe {α : Type} (le : α → α → Bool) : List α → List α
  | [] => []
  | a :: t => insertLe le a (sortLe le t)

/-- A read record `(read_id, start_pos_on_genome, is_reverse_complemented)`
as produced by `AssemblyProblem.create_reads`. -/
abbrev ReadRec := Nat × Nat × Bool

/-- The sort key of `generate_gold_standard`: start position. -/
def recLe (a b : ReadRec) : Bool :=
  a.2.1 ≤ b.2.1

/-- Indexing into `sorted(records) * 2`: the second copy re-reads the
first half and adds `genome_length` to the start position (source lines
291-295).  The default is never consulted: every call site keeps
`i < 2 * n` with `n = rs.length`. -/
def recAt (rs : List ReadRec) (n genomeLength i : Nat) : ReadRec :=
  if i < n then rs.getD i (0, 0, false)
  else
    let r := rs.getD (i - n) (0, 0, false)
    (r.1, r.2.1 + genomeLength, r.2.2)

/-- The inner `vfind` loop of `generate_gold_standard`, in source order:
read the (possibly wrapped) record, check the `upos <= vpos` assert,
look up the target read, cut off when `vpos >= upos + ulen`, then emit a
containment edge or the dovetail pair chosen by the strand table.  The
fuel argument is the number of remaining `vfind` values, so the
recursion is structural and computes inside the kernel. -/
def goldInner (lens : List Nat) (rs : List ReadRec) (genomeLength n : Nat)
    (u upos : Nat) (urev : Bool) (ulen : Nat) :
    Nat → Nat → OverlapGraph → Except String OverlapGraph
  | 0, _, g => .ok g
  | fuel + 1, vfind, g =>
    let r := recAt rs n genomeLength vfind
    let v := r.1
    let vpos := r.2.1
    let vrev := r.2.2
    if upos ≤ vpos then
      match lens.get? v with
      | none => .error "IndexError"
      | some vlen =>
        if vpos ≥ upos + ulen then .ok g
        else if vpos + vlen ≤ upos + ulen then do
          let g ← addOverlap g u v (-1) 0
          goldInner lens rs genomeLength n u upos urev ulen fuel (vfind + 1) g
        else if upos = vpos then do
          let g ← addOverlap g v u (-1) 0
          goldInner lens rs genomeLength n u upos urev ulen fuel (vfind + 1) g
        else do
          let suflen : Int := (vpos : Int) + vlen - upos - ulen
          let prelen : Int := (vpos : Int) - upos
          let g ←
            if !urev && !vrev then do
              let g ← addOverlap g u v 1 suflen
              addOverlap g v u 2 prelen
            else if !urev && vrev then do
              let g ← addOverlap g u v 0 suflen
              addOverlap g v u 0 prelen
            else if urev && !vrev then do
              let g ← addOverlap g u v 3 suflen
              addOverlap g v u 3 prelen
            else do
              let g ← addOverlap g u v 2 suflen
              addOverlap g v u 1 prelen
          goldInner lens rs genomeLength n u upos urev ulen fuel (vfind + 1) g
    else .error "AssertionError"

/-- `OverlapGraph.generate_gold_standard`.  Only read lengths are taken
from the sequences, so the embedding receives them directly; the length
mismatch check raises ValueError, records are stably sorted by start
position, and each `ufind` runs the inner loop over
`vfind ∈ [ufind+1, 2n)`. -/
def generateGoldStandard (lens : List Nat) (records : List ReadRec)
    (genomeLength : Nat) : Except String OverlapGraph :=
  let n := lens.length
  if records.length ≠ n then .error "ValueError"
  else
    let rs := sortLe recLe records
    (List.range n).foldlM
      (fun g ufind =>
        match rs.get? ufind with
        | none => .error "IndexError"
        | some r =>
          match lens.get? r.1 with
          | none => .error "IndexError"
          | some ulen =>
            goldInner lens rs genomeLength n r.1 r.2.1 r.2.2 ulen
              (2 * n - (ufind + 1)) (ufind + 1) g)
      (emptyOG n)

/-- Python string comparison on DNA strings: lexicographic with
character order A < C < G < T (their ASCII order). -/
def strLt : List Base → List Base → Bool
  | [], [] => false
  | [], _ :: _ => true
  | _ :: _, [] => false
  | x :: xs, y :: ys =>
    if nt4 x < nt4 y then true
    else if nt4 y < nt4 x then false
    else strLt xs ys

/-- Python's `min(candidates, key=...)`: the first element attaining the
minimum wins, so a later candidate replaces the best only when strictly
smaller. -/
def pickMin : (Nat × List Base) → List (Nat × List Base) → Nat × List Base
  | best, [] => best
  | best, c :: rest => pickMin (if strLt c.2 best.2 then c else best) rest

/-- The window loop of `FindOverlaps.minimizers`: for each window start
`i` in `range(l - k - w + 1)` pick the position of the lexicographically
smallest k-mer string among offsets `i .. i+w-1`, and emit it unless that
k-mer string was already emitted for this read.  The fuel is the exact
number of window starts, making the recursion structural.  (For `w = 0`
the candidate list is empty; Python would raise there, but no caller in
the repository uses `w = 0` and neither does any claim.) -/
def minimizersLoop (s : List Base) (k w : Nat) :
    Nat → Nat → List (List Base) → List (Nat × List Base)
  | 0, _, _ => []
  | fuel + 1, i, seen =>
    match (List.range w).map (fun j => (i + j, (s.drop (i + j)).take k)) with
    | [] => minimizersLoop s k w fuel (i + 1) seen
    | c :: rest =>
      let m := pickMin c rest
      if seen.contains m.2 then minimizersLoop s k w fuel (i + 1) seen
      else m :: minimizersLoop s k w fuel (i + 1) (m.2 :: seen)

/-- `FindOverlaps.minimizers`; the window-start count `l - k - w + 1` is
computed as `l + 1 - (k + w)` so that Python's empty negative range is
the empty fuel. -/
def minimizers (s : List Base) (k w : Nat) : List (Nat × List Base) :=
  minimizersLoop s k w (s.length + 1 - (k + w)) 0 []

/-- A k-mer array entry `(code, readid, readpos, revflag)`. -/
abbrev KEntry := Nat × Nat × Nat × Bool

/-- A compressed entry `(readid, readpos, revflag)`. -/
abbrev Triple := Nat × Nat × Bool

/-- `FindOverlaps.get_kmer_array`: reads shorter than k are skipped, and
each minimizer contributes `(canonical code, read index, position, rev)`. -/
def get_kmer_array (seqs : List (List Base)) (k w : Nat) : List KEntry :=
  ((seqs.enum).map (fun p =>
    if p.2.length < k then []
    else (minimizers p.2 k w).map (fun q =>
      ((kmercode q.2).1, p.1, q.1, (kmercode q.2).2)))).flatten

/-- Python tuple comparison on k-mer array entries (False < True). -/
def entryLe (a b : KEntry) : Bool :=
  if a.1 ≠ b.1 then decide (a.1 < b.1)
  else if a.2.1 ≠ b.2.1 then decide (a.2.1 < b.2.1)
  else if a.2.2.1 ≠ b.2.2.1 then decide (a.2.2.1 < b.2.2.1)
  else !a.2.2.2 || b.2.2.2

/-- Python dict assignment: overwrite in place or append a new key. -/
def dictSet (d : List (Nat × List Triple)) (c : Nat) (v : List Triple) :
    List (Nat × List Triple) :=
  if d.any (fun p => p.1 == c) then
    d.map (fun p => if p.1 == c then (c, v) else p)
  else d ++ [(c, v)]

/-- Python dict lookup on the insertion-ordered association list. -/
def dictGet (d : List (Nat × List Triple)) (c : Nat) : Option (List Triple) :=
  (d.find? (fun p => p.1 == c)).map (fun p => p.2)

/-- The `while i < len(A) - 1` loop of `FindOverlaps.compress_kmer_array`.
The bucket starting at `i` is the maximal run of equal codes; the inner
`for j in range(i, len(A))` leaves `j` at the first mismatch, or at
`len(A) - 1` when the run reaches the end of the array (Python for-loops
leave the last loop value in `j`), and `i` jumps to `j`.  The fuel
argument dominates the number of iterations (`i` strictly increases),
so `A.length + 1` fuel is exact. -/
def compressLoop (A : List KEntry) :
    Nat → Nat → List (Nat × List Triple) → List (Nat × List Triple)
  | 0, _, acc => acc
  | fuel + 1, i, acc =>
    if i + 1 < A.length then
      let code := (A.getD i (0, 0, 0, false)).1
      let run := (A.drop i).takeWhile (fun e => e.1 == code)
      let adj := run.map (fun e => e.2)
      let j := if i + run.length < A.length then i + run.length
        else A.length - 1
      compressLoop A fuel j (dictSet acc code adj)
    else acc

/-- `FindOverlaps.compress_kmer_array`: sort, then run the bucket loop. -/
def compress_kmer_array (kmer_array : List KEntry) :
    List (Nat × List Triple) :=
  let A := sortLe entryLe kmer_array
  compressLoop A (A.length + 1) 0 []

/-- Python's `bool` is an `int`: False = 0, True = 1. -/
def b2i (b : Bool) : Int := if b then 1 else 0

/-- One seed tuple `(u, v, upos, vpos, urev, vrev)` as the list of the
Python ints it holds (the seed tuples are heterogeneous in Python; the
list encoding preserves their arity, which `generate_seed_based`'s
unpacking depends on). -/
def mkSeed (t1 t2 : Triple) : List Int :=
  [t1.1, t2.1, t1.2.1, t2.2.1, b2i t1.2.2, b2i t2.2.2]

/-- The pair loop of `get_overlap_seeds`: all index pairs `i < j` of one
bucket (the `j = 0` round is empty, matching `range(1, l)`). -/
def seedsOfBucket (triples : List Triple) : List (List Int) :=
  ((List.range triples.length).map (fun j =>
    (List.range j).map (fun i =>
      mkSeed (triples.getD i (0, 0, false))
        (triples.getD j (0, 0, false))))).flatten

/-- `FindOverlaps.get_overlap_seeds`: bucket the minimizer hits by code
and emit every pair inside each bucket, in dict insertion order. -/
def get_overlap_seeds (seqs : List (List Base)) (k w : Nat) :
    List (List Int) :=
  let kd := compress_kmer_array (get_kmer_array seqs k w)
  (kd.map (fun p => seedsOfBucket p.2)).flatten

/-- Python sequence indexing `seqs[u]` (restricted to lengths): negative
indices count from the end, anything else raises IndexError. -/
def pyLen (lens : List Nat) (u : Int) : Option Nat :=
  if 0 ≤ u ∧ u < (lens.length : Int) then lens.get? u.toNat
  else if -(lens.length : Int) ≤ u ∧ u < 0 then
    lens.get? (u + lens.length).toNat
  else none

/-- `add_overlap` reached with Python int indices: the source raises
IndexError on negative indices before anything else. -/
def addOverlapI (G : OverlapGraph) (u v d l : Int) :
    Except String OverlapGraph :=
  if 0 ≤ u ∧ 0 ≤ v then addOverlap G u.toNat v.toNat d l
  else .error "IndexError"

/-- `OverlapGraph.generate_seed_based`.  The Python loop header
`for u, v, upos, vpos, rc in overlap_seeds` unpacks each seed into five
names, so a seed of any other arity — in particular the 6-tuples
`(u, v, upos, vpos, urev, vrev)` that `get_overlap_seeds` emits — raises
ValueError.  A five-element seed is processed exactly as in the source:
reflect `vpos` when `rc` is truthy, then containment / dovetail
classification by position comparisons. -/
def generateSeedBased (lens : List Nat) (overlap_seeds : List (List Int))
    (k : Int) : Except String OverlapGraph :=
  overlap_seeds.foldlM
    (fun g seed =>
      match seed with
      | [u, v, upos, vpos0, rc] =>
        match pyLen lens u, pyLen lens v with
        | some ulen', some vlen' =>
          let ulen : Int := ulen'
          let vlen : Int := vlen'
          let vpos : Int := if rc ≠ 0 then vlen - vpos0 - k - 1 else vpos0
          if upos ≤ vpos ∧ ulen - upos ≤ vlen - vpos then
            addOverlapI g v u (-1) 0
          else if upos ≥ vpos ∧ ulen - upos ≥ vlen - vpos then
            addOverlapI g u v (-1) 0
          else if upos > vpos then
            let suflen := (vlen - vpos) - (ulen - upos)
            let prelen := upos - vpos
            if rc == 0 then do
              let g ← addOverlapI g u v 1 suflen
              addOverlapI g v u 2 prelen
            else do
              let g ← addOverlapI g u v 0 suflen
              addOverlapI g v u 0 prelen
          else
            let suflen := vpos - upos
            let prelen := (ulen - upos) - (vlen - vpos)
            if rc == 0 then do
              let g ← addOverlapI g u v 2 suflen
              addOverlapI g v u 1 prelen
            else do
              let g ← addOverlapI g u v 3 suflen
              addOverlapI g v u 3 prelen
        | _, _ => .error "IndexError"
      | _ => .error "ValueError")
    (emptyOG lens.length)

/-- Two identical 4bp reads; with k = 3, w = 1 they share the minimizer
"ACG" and produce exactly one overlap seed. -/
def seqsACGT : List (List Base) :=
  [[Base.A, Base.C, Base.G, Base.T], [Base.A, Base.C, Base.G, Base.T]]

/-- The empty one-vertex graph used for the add-overlap scenarios. -/
def G0 : OverlapGraph := emptyOG 1

/-- `add_overlap G0 0 0 5 9` succeeds and stores `(5, 9)`. -/
def G1c : OverlapGraph := setEdge G0 0 0 5 9

/-- Re-adding with the smaller overhang 4 overwrites, storing `(6, 4)`. -/
def G2c : OverlapGraph := setEdge G1c 0 0 6 4

theorem kmerVal_lt (s : List Base) : kmerVal s < 4 ^ s.length := by
  induction s with
  | nil => simp [kmerVal]
  | cons b t ih =>
    have hb : nt4 b ≤ 3 := by cases b <;> simp [nt4]
    have : nt4 b * 4 ^ t.length ≤ 3 * 4 ^ t.length :=
      Nat.mul_le_mul_right _ hb
    simp only [kmerVal, List.length_cons, pow_succ]
    omega

theorem nt4_injective {a b : Base} (h : nt4 a = nt4 b) : a = b := by
  cases a <;> cases b <;> simp_all [nt4]

theorem kmerVal_injOn {s t : List Base} (hl : s.length = t.length)
    (h : kmerVal s = kmerVal t) : s = t := by
  induction s generalizing t with
  | nil => cases t with
    | nil => rfl
    | cons c u => simp at hl
  | cons b s ih =>
    cases t with
    | nil => simp at hl
    | cons c u =>
      have hlen : s.length = u.length := by simpa using hl
      have hs := kmerVal_lt s
      have hu := kmerVal_lt u
      rw [hlen] at hs
      simp only [kmerVal, hlen] at h
      have hbc : nt4 b = nt4 c := by
        rcases Nat.lt_trichotomy (nt4 b) (nt4 c) with hlt | heq | hgt
        · exfalso
          have : nt4 b * 4 ^ u.length + 4 ^ u.length ≤ nt4 c * 4 ^ u.length := by
            have := Nat.succ_le_of_lt hlt
            calc nt4 b * 4 ^ u.length + 4 ^ u.length
                = (nt4 b + 1) * 4 ^ u.length := by ring
              _ ≤ nt4 c * 4 ^ u.length := Nat.mul_le_mul_right _ this
          omega
        · exact heq
        · exfalso
          have : nt4 c * 4 ^ u.length + 4 ^ u.length ≤ nt4 b * 4 ^ u.length := by
            have := Nat.succ_le_of_lt hgt
            calc nt4 c * 4 ^ u.length + 4 ^ u.length
                = (nt4 c + 1) * 4 ^ u.length := by ring
              _ ≤ nt4 b * 4 ^ u.length := Nat.mul_le_mul_right _ this
          omega
      have hrest : kmerVal s = kmerVal u := by
        rw [hbc] at h
        omega
      rw [nt4_injective hbc, ih hlen hrest]

theorem compBase_involutive (b : Base) : compBase (compBase b) = b := by
  cases b <;> rfl

theorem reverse_complement_involutive (s : List Base) :
    reverse_complement (reverse_complement s) = s := by
  simp [reverse_complement, List.map_reverse, List.map_map,
    Function.comp_def, compBase_involutive]

theorem reverse_complement_length (s : List Base) :
    (reverse_complement s).length = s.length := by
  simp [reverse_complement]

/-- C9: for every DNA string s, `kmercode` gives the same code to s and to
its reverse complement; the rev flags are opposite when s differs from its
reverse complement; when s equals its reverse complement the flag is false
(forward wins ties); and concretely `kmercode "ACG" = (6, false)` while
`kmercode "CGT" = (6, true)`. -/
theorem kmercode_canonical (s : List Base) :
    (kmercode s).1 = (kmercode (reverse_complement s)).1 ∧
    (s ≠ reverse_complement s →
      (kmercode s).2 = !(kmercode (reverse_complement s)).2) ∧
    (s = reverse_complement s → (kmercode s).2 = false) ∧
    kmercode [Base.A, Base.C, Base.G] = (6, false) ∧
    kmercode [Base.C, Base.G, Base.T] = (6, true) := by
  refine ⟨?_, ?_, ?_, by decide, by decide⟩
  · simp only [kmercode, reverse_complement_involutive]
    exact Nat.min_comm _ _
  · intro hne
    have hval : kmerVal s ≠ kmerVal (reverse_complement s) := by
      intro h
      exact hne (kmerVal_injOn (reverse_complement_length s).symm h)
    simp only [kmercode, reverse_complement_involutive]
    rcases Nat.lt_or_ge (kmerVal s) (kmerVal (reverse_complement s)) with hlt | hge
    · simp [Nat.not_lt.mpr (Nat.le_of_lt hlt), hlt]
    · have hlt : kmerVal (reverse_complement s) < kmerVal s :=
        Nat.lt_of_le_of_ne hge (fun h => hval h.symm)
      simp [hlt, Nat.not_lt.mpr (Nat.le_of_lt hlt)]
  · intro heq
    simp [kmercode, ← heq]

/-- Witness for C9 at the concrete non-palindromic k-mer "A". -/
theorem kmercode_canonical_witness :
    (kmercode [Base.A]).1 = (kmercode (reverse_complement [Base.A])).1 ∧
    (kmercode [Base.A]).2 = !(kmercode (reverse_complement [Base.A])).2 :=
  ⟨(kmercode_canonical [Base.A]).1,
    (kmercode_canonical [Base.A]).2.1 (by decide)⟩

theorem mkGraph_WF (n : Nat) (es : List (Nat × Nat × Int × Int)) :
    WF (mkGraph n es) := by
  intro u v h
  simp only [mkGraph] at h
  split at h
  · assumption
  · simp at h

/-- C1 counterexample: on a fresh pair, `add_overlap` with overhang 9 and
then overhang 4 stores overhang 4, not `max 9 4 = 9`: re-adding with a
larger overhang is the no-op, contrary to the claim. -/
theorem addOverlap_keeps_smaller_not_max :
    ((addOverlap G0 0 0 5 9).bind fun g1 => addOverlap g1 0 0 6 4).map
      (fun g2 => (g2.g 0 0).map Prod.snd) = .ok (some 4) ∧
    (4 : Int) ≠ max 9 4 := by
  constructor
  · rfl
  · decide

/-- C1 amended: for in-range `u, v` with no existing `(u, v)` edge, after
`add_overlap(u,v,d,L1); add_overlap(u,v,d',L2)` exactly one edge `(u, v)`
is stored and its overhang is `min L1 L2`; re-adding with a smaller
overhang replaces the stored edge, while a larger or equal overhang is
ignored (no-op).  No other adjacency entry changes. -/
theorem addOverlap_overhang_min (G G1 G2 : OverlapGraph) (u v x y : Nat)
    (d L1 d' L2 : Int)
    (hu : u < G.n) (hv : v < G.n) (h0 : G.g u v = none)
    (h1 : addOverlap G u v d L1 = .ok G1)
    (h2 : addOverlap G1 u v d' L2 = .ok G2)
    (hxy : ¬(x = u ∧ y = v)) :
    G2.g u v = some (if L2 < L1 then d' else d, min L1 L2) ∧
    G2.g x y = G.g x y := by
  have huv : u < G.n ∧ v < G.n := ⟨hu, hv⟩
  simp only [addOverlap, if_pos huv, h0] at h1
  have hG1 : G1 = setEdge G u v d L1 := by
    cases h1
    rfl
  have hn1 : G1.n = G.n := by rw [hG1]; rfl
  have hg1 : G1.g u v = some (d, L1) := by
    rw [hG1]
    simp [setEdge]
  simp only [addOverlap, hn1, if_pos huv, hg1] at h2
  by_cases hle : L1 ≤ L2
  · rw [if_pos hle] at h2
    have hG2 : G2 = G1 := by cases h2; rfl
    subst hG2
    refine ⟨?_, ?_⟩
    · rw [hg1, if_neg (by omega), min_eq_left hle]
    · rw [hG1]
      simp [setEdge, hxy]
  · rw [if_neg hle] at h2
    have hG2 : G2 = setEdge G1 u v d' L2 := by cases h2; rfl
    subst hG2
    refine ⟨?_, ?_⟩
    · simp [setEdge, if_pos (by omega : L2 < L1), min_eq_right (by omega : L2 ≤ L1)]
    · rw [hG1]
      simp [setEdge, hxy]

/-- Witness for C1 (amended) on the one-vertex empty graph with overhangs
9 then 4: the stored edge is `(6, 4)` and the untouched entry `(1, 0)`
stays empty. -/
theorem addOverlap_overhang_min_witness :
    G2c.g 0 0 = some (if (4 : Int) < 9 then 6 else 5, min 9 4) ∧
    G2c.g 1 0 = G0.g 1 0 :=
  addOverlap_overhang_min G0 G1c G2c 0 0 1 0 5 9 6 4
    (by decide) (by decide) rfl rfl rfl (by simp)

/-- Inversion for a successful `get_naive_tr` call: neither phase hits a
missing key and the result is the graph of unmarked in-range edges. -/
theorem naiveTr_ok (G : OverlapGraph) (fuzz : Int) (tr : OverlapGraph)
    (hok : naiveTr G fuzz = .ok tr) :
    markErrorB G = false ∧ copyErrorB G fuzz = false ∧
    tr = ⟨G.n, fun x y =>
      if x < G.n ∧ y < G.n ∧ markedB G fuzz x y = false then G.g x y
      else none⟩ := by
  unfold naiveTr at hok
  by_cases h1 : markErrorB G = true
  · rw [if_pos h1] at hok
    cases hok
  · rw [if_neg h1] at hok
    by_cases h2 : copyErrorB G fuzz = true
    · rw [if_pos h2] at hok
      cases hok
    · rw [if_neg h2] at hok
      exact ⟨by simpa using h1, by simpa using h2, (Except.ok.inj hok).symm⟩

theorem markedB_symm (G : OverlapGraph) (fuzz : Int) (x y : Nat) :
    markedB G fuzz x y = markedB G fuzz y x := by
  simp only [markedB]
  congr 1
  funext u
  congr 1
  funext v
  congr 1
  funext w
  congr 1
  rw [Bool.or_comm, Bool.and_comm (x == w), Bool.and_comm (x == u)]

/-- C3: whenever `get_naive_tr(G, fuzz)` returns a graph, every ordered
triple `(u, v, w)` with `v ∈ adj(u)`, `w ∈ adj(u) ∩ adj(v)`, consistent
arrow bits, and `suflen(u,w) + suflen(w,v) ≥ suflen(u,w) + fuzz` (the
source's literal test) marks both `(u, w)` and `(w, u)`; marking is
always symmetric; and the returned graph holds exactly the unmarked
edges of `G`. -/
theorem naiveTr_marks (G : OverlapGraph) (fuzz : Int) (tr : OverlapGraph)
    (u v w x y : Nat) (hWF : WF G) (hok : naiveTr G fuzz = .ok tr)
    (huv : hasEdge G u v = true) (hvw : hasEdge G v w = true)
    (huw : hasEdge G u w = true) (harr : arrowCondB G u v w = true)
    (hfuzz : suflen G u w + suflen G w v ≥ suflen G u w + fuzz) :
    markedB G fuzz u w = true ∧ markedB G fuzz w u = true ∧
    markedB G fuzz x y = markedB G fuzz y x ∧
    tr.g x y = (if x < G.n ∧ y < G.n ∧ markedB G fuzz x y = false then
      G.g x y else none) := by
  obtain ⟨hmerr, hcerr, htr⟩ := naiveTr_ok G fuzz tr hok
  have hun : u < G.n := (hWF u v (by simpa [hasEdge] using huv)).1
  have hvn : v < G.n := (hWF u v (by simpa [hasEdge] using huv)).2
  have hwn : w < G.n := (hWF v w (by simpa [hasEdge] using hvw)).2
  have hwv : hasEdge G w v = true := by
    by_contra hc
    have hc' : hasEdge G w v = false := by simpa using hc
    have hbad : markErrorB G = true := by
      rw [markErrorB, List.any_eq_true]
      refine ⟨u, List.mem_range.mpr hun, ?_⟩
      rw [List.any_eq_true]
      refine ⟨v, List.mem_range.mpr hvn, ?_⟩
      rw [List.any_eq_true]
      refine ⟨w, List.mem_range.mpr hwn, ?_⟩
      simp [huv, hvw, huw, harr, hc']
    rw [hmerr] at hbad
    cases hbad
  have hmk : ∀ a b : Nat,
      ((a == u && b == w) || (a == w && b == u)) = true →
      markedB G fuzz a b = true := by
    intro a b hab
    rw [markedB, List.any_eq_true]
    refine ⟨u, List.mem_range.mpr hun, ?_⟩
    rw [List.any_eq_true]
    refine ⟨v, List.mem_range.mpr hvn, ?_⟩
    rw [List.any_eq_true]
    refine ⟨w, List.mem_range.mpr hwn, ?_⟩
    simp only [huv, hvw, huw, harr, hwv, hab, decide_eq_true hfuzz,
      Bool.and_true, Bool.true_and]
  subst htr
  exact ⟨hmk u w (by simp), hmk w u (by simp), markedB_symm G fuzz x y, rfl⟩

/-- Witness for C3 on the concrete triangle graph `Gc` with fuzz 0, the
qualifying triple `(0, 1, 2)`, and the edge slot `(0, 2)`. -/
theorem naiveTr_marks_witness :
    markedB Gc 0 0 2 = true ∧ markedB Gc 0 2 0 = true ∧
    markedB Gc 0 0 2 = markedB Gc 0 2 0 ∧
    GcTr.g 0 2 = (if 0 < Gc.n ∧ 2 < Gc.n ∧ markedB Gc 0 0 2 = false then
      Gc.g 0 2 else none) :=
  naiveTr_marks Gc 0 GcTr 0 1 2 0 2 (mkGraph_WF 3 _) rfl
    (by decide) (by decide) (by decide) (by decide) (by decide)

/-- C7: whenever `get_naive_tr(G, fuzz)` returns a graph, that graph has
at most as many edges as `G` (its edges are a subset of `G`'s). -/
theorem naiveTr_numEdges_le (G : OverlapGraph) (fuzz : Int)
    (tr : OverlapGraph) (hok : naiveTr G fuzz = .ok tr) :
    numEdges tr ≤ numEdges G := by
  obtain ⟨-, -, htr⟩ := naiveTr_ok G fuzz tr hok
  subst htr
  rw [numEdges, numEdges]
  refine List.sum_le_sum ?_
  intro u hu
  refine List.countP_mono_left ?_
  intro v hv hsome
  simp only at hsome ⊢
  split at hsome
  · exact hsome
  · cases hsome

/-- Witness for C7: on `Gc` the call succeeds and the edge count of the
result is at most that of `Gc`. -/
theorem naiveTr_numEdges_le_witness :
    naiveTr Gc 0 = .ok GcTr ∧ numEdges GcTr ≤ numEdges Gc :=
  ⟨rfl, naiveTr_numEdges_le Gc 0 GcTr rfl⟩

/-- C10: on any well-formed graph with an unmarked edge `(u, w)` whose
reverse `(w, u)` is absent — e.g. any containment edge, which the
builders store without a shadow edge — `get_naive_tr` raises KeyError
(the copy phase reads `reduce[w][u]` under the assert and `g[w][u]` for
the shadow copy; neither key exists), so transitive reduction is only
usable after containment pruning. -/
theorem naiveTr_keyError (G : OverlapGraph) (fuzz : Int) (u w : Nat)
    (e : Int × Int) (hWF : WF G) (he : G.g u w = some e)
    (hm : markedB G fuzz u w = false) (hrev : G.g w u = none) :
    naiveTr G fuzz = .error "KeyError" := by
  have hun : u < G.n := (hWF u w (by simp [he])).1
  have hwn : w < G.n := (hWF u w (by simp [he])).2
  have hcerr : copyErrorB G fuzz = true := by
    rw [copyErrorB, List.any_eq_true]
    refine ⟨u, List.mem_range.mpr hun, ?_⟩
    rw [List.any_eq_true]
    refine ⟨w, List.mem_range.mpr hwn, ?_⟩
    simp [hasEdge, he, hm, hrev]
  unfold naiveTr
  by_cases h1 : markErrorB G = true
  · rw [if_pos h1]
  · rw [if_neg h1, if_pos hcerr]

/-- Witness for C10: the S3 containment graph `Gp` (single dir = -1 edge,
no shadow edge) makes `get_naive_tr(Gp, 0)` raise KeyError. -/
theorem naiveTr_keyError_witness : naiveTr Gp 0 = .error "KeyError" :=
  naiveTr_keyError Gp 0 0 1 (-1, 0) (mkGraph_WF 2 _)
    (by decide) (by decide) (by decide)

theorem getPruned_n (G : OverlapGraph) : (getPruned G).n = G.n := rfl

theorem getPruned_g (G : OverlapGraph) (u v : Nat) :
    (getPruned G).g u v =
      if u < G.n ∧ v < G.n ∧ containedB G u = false ∧ containedB G v = false then
        G.g u v
      else none := rfl

/-- C8: containment pruning is idempotent: pruning removes every edge
that touches a contained vertex, so no `dir = -1` edge survives, the
pruned graph has no contained vertices, and pruning it again copies
every edge unchanged. -/
theorem getPruned_idempotent (G : OverlapGraph) :
    getPruned (getPruned G) = getPruned G := by
  have hcont : ∀ v, containedB (getPruned G) v = false := by
    intro v
    rw [containedB, List.any_eq_false]
    intro u hu
    rcases hcase : (getPruned G).g u v with _ | ⟨d, l⟩
    · simp
    · rw [getPruned_g] at hcase
      split at hcase
      · rename_i hcond
        simp only [decide_eq_false_iff_not]
        intro hd
        have hd : d = -1 := by simpa using hd
        have hctrue : containedB G v = true := by
          rw [containedB, List.any_eq_true]
          refine ⟨u, List.mem_range.mpr hcond.1, ?_⟩
          rw [hcase, hd]
          simp
        rw [hcond.2.2.2] at hctrue
        cases hctrue
      · cases hcase
  refine OverlapGraph.ext rfl ?_
  funext u v
  rw [getPruned_g (getPruned G) u v, getPruned_n]
  by_cases hr : u < G.n ∧ v < G.n
  · rw [if_pos ⟨hr.1, hr.2, hcont u, hcont v⟩]
  · rw [if_neg (fun hc => hr ⟨hc.1, hc.2.1⟩), getPruned_g,
      if_neg (fun hc => hr ⟨hc.1, hc.2.1⟩)]

/-- C4 counterexample: with genome_length = 0 ("linear mode") the builder
does not return a graph at all: for the last-sorted read the wrap copy
of the first record keeps its small position, and the `upos <= vpos`
assert — executed before the cutoff test — fails, raising
AssertionError.  So the linear call cannot "produce no overlap". -/
theorem goldStandard_linear_asserts :
    generateGoldStandard [10, 8] [(0, 15, false), (1, 3, false)] 0 =
      .error "AssertionError" := rfl

/-- C4 amended: with circular mode (genome_length = 20) the builder
produces the overlap between the two reads (edges (0,1,dir=1,overhang=6)
and (1,0,dir=2,overhang=8) and nothing else); with genome_length = 0 it
raises AssertionError instead of returning an overlap-free graph. -/
theorem goldStandard_circular_wrap :
    (generateGoldStandard [10, 8] [(0, 15, false), (1, 3, false)] 20).map
      (fun G => (G.g 0 1, G.g 1 0, numEdges G)) =
      .ok (some (1, 6), some (2, 8), 2) ∧
    generateGoldStandard [10, 8] [(0, 15, false), (1, 3, false)] 0 =
      .error "AssertionError" :=
  ⟨rfl, rfl⟩

/-- C5: three forward reads of length 8 at positions 0, 4, 8 of the 16bp
genome yield exactly the four directed edges (0,1,dir=1,4), (1,0,dir=2,4),
(1,2,dir=1,4), (2,1,dir=2,4); no (0,2) edge exists because vpos = 8
equals upos + ulen = 8 and the inner loop cuts off there. -/
theorem goldStandard_dovetail_triangle :
    (generateGoldStandard [8, 8, 8]
        [(0, 0, false), (1, 4, false), (2, 8, false)] 16).map
      (fun G => (G.g 0 1, G.g 1 0, G.g 1 2, G.g 2 1, G.g 0 2, G.g 2 0,
        numEdges G)) =
      .ok (some (1, 4), some (2, 4), some (1, 4), some (2, 4), none, none,
        4) := rfl

/-- C6: `compress_kmer_array` sorts and buckets, but its loop stops at
`len(A) - 1` and drops the bucket that begins at the last sorted index:
for the two-entry array with distinct codes 1 < 2, the bucket of the
largest code 2 is absent from the returned dictionary while code 1 is
mapped to exactly its entries. -/
theorem compress_drops_final_bucket :
    compress_kmer_array [(2, 0, 1, false), (1, 0, 0, false)] =
      [(1, [(0, 0, false)])] ∧
    dictGet (compress_kmer_array [(2, 0, 1, false), (1, 0, 0, false)]) 2 =
      none ∧
    dictGet (compress_kmer_array [(2, 0, 1, false), (1, 0, 0, false)]) 1 =
      some [(0, 0, false)] :=
  ⟨rfl, rfl, rfl⟩

/-- C2 (code bug): for the reads "ACGT", "ACGT" with k = 3, w = 1,
`get_overlap_seeds` emits the single 6-tuple seed (0, 1, 0, 0, F, F),
and `generate_seed_based` applied to it raises ValueError on its very
first seed, because the loop header unpacks each seed into only five
names (u, v, upos, vpos, rc).  The claimed C3 → C6 dataflow therefore
fails on every nonempty seed list. -/
theorem seedBased_unpack_valueError :
    get_overlap_seeds seqsACGT 3 1 = [[0, 1, 0, 0, 0, 0]] ∧
    generateSeedBased (seqsACGT.map List.length)
      (get_overlap_seeds seqsACGT 3 1) 3 = .error "ValueError" :=
  ⟨rfl, rfl⟩
